import Mathlib

/-!
Verification of the aircot aircraft-classification engine.

The definitions below are shallow embeddings of the Python sources:
  * `src/src/aircot/functions.py` and `src/src/aircot/constants.py`
    (the current revision) are embedded in namespace `Aircot`;
  * `src/aircot/functions.py` (the earlier revision, which differs in
    `lookup_country` — linear scan — and `set_name_callsign` — no
    trailing "(icao)" suffix) is embedded in namespace `AircotV1`.

Machine integers are modelled as `Nat` (ICAO addresses are 24-bit and no
arithmetic overflows), Python `None`-able strings as `Option String`,
Python dicts as association lists, and a Python exception as `none` in an
`Option` result.
-/

/-- Python string truthiness for an optional string: `None` and `""` are
falsy, every other string is truthy. -/
def pyTruthy : Option String → Bool
  | some s => s ≠ ""
  | none => false

/-- Python `str.upper()` (ASCII, which covers every string the sources use). -/
def pyUpper (s : String) : String := String.mk (s.toList.map Char.toUpper)

/-- Python whitespace characters, as stripped by `str.strip()` and around
int literals. -/
def isPySpaceChar (c : Char) : Bool :=
  c = ' ' || c = '\t' || c = '\n' || c = '\x0d' || c = '\x0b' || c = '\x0c'

/-- Python `str.strip()`: drop whitespace from both ends. -/
def pyStrip (s : String) : String :=
  String.mk (((s.toList.dropWhile isPySpaceChar).reverse.dropWhile isPySpaceChar).reverse)

/-- Python's `pat in s` substring test, used on the keys of the hex-range
table (`"-CIV" in k`). -/
def strContainsSub (s pat : String) : Bool :=
  (List.range (s.toList.length + 1)).any fun i =>
    List.isPrefixOf pat.toList (s.toList.drop i)

/-- Hex-digit test for Python `int(_, 16)`. -/
def isHexDigitPy (c : Char) : Bool :=
  c.isDigit || ('a' ≤ c && c ≤ 'f') || ('A' ≤ c && c ≤ 'F')

/-- Value of a hex digit. -/
def hexDigitVal (c : Char) : Nat :=
  if c.isDigit then c.toNat - 48
  else if 'a' ≤ c then c.toNat - 87
  else c.toNat - 55

/-- Remaining digits of a Python hex literal after the first digit: a
sequence of hex digits in which a single underscore may sit between two
digits (`int("0x1_2", 16)` is legal, trailing or doubled underscores are
not). -/
def hexDigitsRest : List Char → Nat → Option Nat
  | [], acc => some acc
  | c :: rest, acc =>
    if isHexDigitPy c then hexDigitsRest rest (acc * 16 + hexDigitVal c)
    else if c = '_' then
      match rest with
      | d :: rest2 =>
        if isHexDigitPy d then hexDigitsRest rest2 (acc * 16 + hexDigitVal d)
        else none
      | [] => none
    else none

/-- The embedding of `int(f"0x{icao.replace('~', '')}", 16)` from
`adsb_to_cot_type`: all `~` are removed, then the string must be a valid
Python hexadecimal literal body (one optional underscore after the `0x`
prefix, hex digits with single underscores between digits, optional
trailing whitespace).  `none` models the `ValueError` Python raises on any
other input. -/
def pyIntHex (s : String) : Option Nat :=
  let t := (s.toList.filter fun c => c ≠ '~')
  let t := (t.reverse.dropWhile isPySpaceChar).reverse
  let t := match t with
    | '_' :: rest => rest
    | other => other
  match t with
  | c :: rest => if isHexDigitPy c then hexDigitsRest rest (hexDigitVal c) else none
  | [] => none

namespace Aircot

/-- One row of the country table: `{"start": …, "end": …, "country": …}`.
The source's `end` field is called `stop` because `end` is a Lean keyword. -/
structure IcaoRange where
  start : Nat
  stop : Nat
  country : String
deriving DecidableEq

/-- One entry of `DEFAULT_HEX_RANGES` (`constants.py`): the dict key and the
`start`/`end` bounds. -/
structure HexRange where
  key : String
  start : Nat
  stop : Nat
deriving DecidableEq

/-- `DOMESTIC_US_AIRLINES` from `constants.py`. -/
def DOMESTIC_US_AIRLINES : List String :=
  ["AAL", "UAL", "FDX", "UPS", "SWA", "DAL", "JBU", "ASA", "SKW", "FFT",
   "NKS", "AAY", "SWQ", "FLG", "CPZ", "RPA", "ENY", "GJS", "JIA", "PDT",
   "CHQ", "EJA", "CSQ", "XOJ"]

/-- `DEFAULT_HEX_RANGES` from `constants.py`, in dict insertion order. -/
def DEFAULT_HEX_RANGES : List HexRange :=
  [⟨"US-CIV", 0xA00000, 0xADF7C7⟩,
   ⟨"US-MIL", 0xADF7C8, 0xAFFFFF⟩,
   ⟨"CAN-CIV", 0xC00000, 0xC0CDF8⟩,
   ⟨"CAN-MIL", 0xC0CDF9, 0xC3FFFF⟩,
   ⟨"NZ-CIV", 0xC80000, 0xC87DFF⟩,
   ⟨"NZ-gnd", 0xC87E00, 0xC87EFF⟩,
   ⟨"NZ-MIL", 0xC87F00, 0xC87FFF⟩,
   ⟨"AUS-CIV", 0x7C0000, 0x7FFFFF⟩,
   ⟨"AUS-MIL", 0x7CF800, 0x7CFAFF⟩,
   ⟨"UK-CIV", 0x400000, 0x43FFFF⟩,
   ⟨"UK-MIL", 0x43C000, 0x43CFFF⟩]

/-- `_CIV_RANGES = [k for k in DEFAULT_HEX_RANGES if "-CIV" in k]`. -/
def _CIV_RANGES : List HexRange :=
  DEFAULT_HEX_RANGES.filter fun r => strContainsSub r.key "-CIV"

/-- `_MIL_RANGES = [k for k in DEFAULT_HEX_RANGES if "-MIL" in k]`. -/
def _MIL_RANGES : List HexRange :=
  DEFAULT_HEX_RANGES.filter fun r => strContainsSub r.key "-MIL"

/-- `get_icao_range`: `_RANGE_CACHE.get(range_type, [])`. -/
def get_icao_range (range_type : String) : List HexRange :=
  if range_type = "CIV" then _CIV_RANGES
  else if range_type = "MIL" then _MIL_RANGES
  else []

/-- `icao_in_known_range`: scan the cached ranges of the requested kind and
remember whether any of them contains the address (inclusive bounds). -/
def icao_in_known_range (icao_int : Nat) (range_type : String) : Bool :=
  (get_icao_range range_type).foldl
    (fun friendly r => if r.start ≤ icao_int ∧ icao_int ≤ r.stop then true else friendly)
    false

/-- `set_friendly_mil`: on a MIL-range hit overwrite both fields with
`("f", "M")`, otherwise return the inputs unchanged. -/
def set_friendly_mil (icao : Nat) (attitude affil : String) : String × String :=
  if icao_in_known_range icao "MIL" then ("f", "M") else (attitude, affil)

/-- `set_neutral_civ`: on a CIV-range hit overwrite both fields with
`("n", "C")`, otherwise return the inputs unchanged. -/
def set_neutral_civ (icao : Nat) (attitude affil : String) : String × String :=
  if icao_in_known_range icao "CIV" then ("n", "C") else (attitude, affil)

/-- `is_tw`: the fixed special region `0x899000`–`0x8993FF` forces
attitude `"n"`. -/
def is_tw (icao : Nat) (attitude : String) : String :=
  if 0x899000 ≤ icao ∧ icao ≤ 0x8993FF then "n" else attitude

/-- `set_domestic_us`: attitude becomes `"n"` when the flight string starts
with any listed domestic-carrier prefix. -/
def set_domestic_us (flight : Option String) (attitude : String) : String :=
  match flight with
  | some f =>
    if f ≠ "" then
      if DOMESTIC_US_AIRLINES.any (fun dom => f.startsWith dom) then "n" else attitude
    else attitude
  | none => attitude

/-- `bisect.bisect_right` inner loop (`lo, hi` bounds, out-of-range reads
default to `0` but never happen while `lo < hi ≤ a.length`).  The extra
fuel argument makes the loop structurally recursive; every call supplies
fuel `≥ hi - lo`, which the loop can never exhaust since each iteration
shrinks `hi - lo` by at least one. -/
def bisectRightGo (a : List Nat) (x : Nat) (lo hi : Nat) : Nat → Nat
  | 0 => lo
  | fuel + 1 =>
    if lo < hi then
      if x < a.getD ((lo + hi) / 2) 0 then bisectRightGo a x lo ((lo + hi) / 2) fuel
      else bisectRightGo a x ((lo + hi) / 2 + 1) hi fuel
    else lo

/-- `bisect.bisect_right(a, x)`. -/
def bisectRight (a : List Nat) (x : Nat) : Nat :=
  bisectRightGo a x 0 a.length a.length

/-- `lookup_country` (current revision): binary search over the start-sorted
table for the rightmost entry whose `start ≤ icao`, accepted only when
`icao ≤ entry.end`.  The table argument stands for the module-level
`_ICAO_SORTED` (and its projection `_ICAO_STARTS`) computed at load time. -/
def lookup_country (tbl : List IcaoRange) (icao : Nat) : Option String :=
  let starts := tbl.map fun r => r.start
  let idx := bisectRight starts icao
  if 1 ≤ idx then
    match tbl.get? (idx - 1) with
    | some entry =>
      if entry.start ≤ icao ∧ icao ≤ entry.stop then some entry.country else none
    | none => none
  else none

/-- The load-time `sorted(..., key=lambda x: x["start"])` applied to the
rows of the countries file. -/
def sortIcao (tbl : List IcaoRange) : List IcaoRange :=
  List.insertionSort (fun x y => x.start ≤ y.start) tbl

/-- `is_known_country_icao`: a truthy country name (found and non-empty)
forces attitude `"n"`. -/
def is_known_country_icao (countries : List IcaoRange) (icao : Nat) (attitude : String) : String :=
  match lookup_country countries icao with
  | some c => if c ≠ "" then "n" else attitude
  | none => attitude

/-- `dolphin`: USCG Dolphin heuristic — flight present, at least three
characters long, starting with `"C6"`, and affiliation `"M"`. -/
def dolphin (flight : Option String) (affil : Option String) : Bool :=
  match flight with
  | some f =>
    if f ≠ "" ∧ 3 ≤ f.length ∧ f.take 2 = "C6" then
      match affil with
      | some a => a ≠ "" ∧ a = "M"
      | none => false
    else false
  | none => false

/-- `is_dolphin`: rewrite the type to the CSAR rotary-wing code when the
Dolphin heuristic fires. -/
def is_dolphin (affil : String) (cot_type : String) (flight : Option String) : String :=
  if dolphin flight (some affil) then "a-f-A-" ++ affil ++ "-H-H" else cot_type

/-- `cot_type_from_category`: the fixed dispatch table from the ADS-B
emitter category to a CoT type; the `affil = "M"` mutations of the source
appear as the literal `"M"` in both components of those branches. -/
def cot_type_from_category (category : String) (attitude affil : String)
    (cot_type : Option String) : Option String × String :=
  if category ∈ (["1", "2", "3", "4", "5", "A1", "A2", "A3", "A4", "A5"] : List String) then
    (some ("a-" ++ attitude ++ "-A-" ++ affil ++ "-F"), affil)
  else if category ∈ (["6", "A6"] : List String) then
    (some ("a-" ++ attitude ++ "-A-" ++ "M" ++ "-F-F"), "M")
  else if category ∈ (["7", "A7"] : List String) then
    (some ("a-" ++ attitude ++ "-A-" ++ affil ++ "-H"), affil)
  else if category ∈ (["9", "B1"] : List String) then
    (some ("a-" ++ attitude ++ "-A-" ++ affil ++ "-F"), affil)
  else if category ∈ (["10", "B2"] : List String) then
    (some ("a-" ++ attitude ++ "-A-" ++ affil ++ "-L"), affil)
  else if category ∈ (["14", "B6"] : List String) then
    (some ("a-" ++ attitude ++ "-A-" ++ "M" ++ "-F-Q"), "M")
  else if category ∈ (["15", "B7"] : List String) then
    (some ("a-" ++ attitude ++ "-P-" ++ affil), affil)
  else if category ∈ (["17", "18", "C1", "C2"] : List String) then
    (some "a-.-G-E-V-C-U", affil)
  else if category ∈ (["19", "20", "C3", "C4"] : List String) then
    (some ("a-" ++ attitude ++ "-G-I-U-T-com-tow"), affil)
  else if category ∈ (["0", "8", "13", "16", "22", "23", "24", "25", "26", "27",
      "28", "29", "30", "31", "32", "33", "34", "35", "36", "37", "38", "39",
      "A0", "B0", "B5", "C0", "C6", "C7", "D0", "D1", "D2", "D3", "D4", "D5",
      "D6", "D7"] : List String) then
    (some ("a-" ++ attitude ++ "-A-" ++ affil), affil)
  else
    (cot_type, affil)

/-- Lines 148–156 of `adsb_to_cot_type`: the attitude/affiliation rule
chain, applied in source order to the defaults `attitude = "u"`,
`affil = "C"`, each step overwriting the previous values. -/
def classify_attitude_affil (countries : List IcaoRange) (icao : Nat)
    (flight : Option String) : String × String :=
  let affil := "C"
  let attitude := "u"
  let attitude := set_domestic_us flight attitude
  let attitude := is_tw icao attitude
  let p := set_neutral_civ icao attitude affil
  let attitude := p.1
  let affil := p.2
  let attitude := is_known_country_icao countries icao attitude
  set_friendly_mil icao attitude affil

/-- `adsb_to_cot_type` (current revision): parse the hex address (a
`ValueError` is `none`), run the rule chain, compose the base type, apply
the category table when a truthy category is supplied, and finish with the
Dolphin override. -/
def adsb_to_cot_type (countries : List IcaoRange) (icao : String)
    (category flight : Option String) : Option String :=
  match pyIntHex icao with
  | none => none
  | some icaoInt =>
    let p := classify_attitude_affil countries icaoInt flight
    let attitude := p.1
    let affil := p.2
    let cot_type := "a-" ++ attitude ++ "-A-" ++ affil
    let q :=
      if pyTruthy category then
        cot_type_from_category (category.getD "") attitude affil (some cot_type)
      else (some cot_type, affil)
    some (is_dolphin q.2 (q.1.getD cot_type) flight)

/-- A known-craft record: a Python dict of string fields, modelled as an
association list. -/
abbrev Record := List (String × String)

/-- `set_cot_type`: a truthy `known_craft["COT"]` is returned outright,
otherwise the rule engine runs. -/
def set_cot_type (countries : List IcaoRange) (icao_hex : String)
    (category flight : Option String) (known_craft : Record) : Option String :=
  match known_craft.lookup "COT" with
  | some c => if c = "" then adsb_to_cot_type countries icao_hex category flight else some c
  | none => adsb_to_cot_type countries icao_hex category flight

/-- The else-branch of `set_name_callsign` shared by both revisions: build
`name = "ICAO-{icao}"` and pick the callsign by the flight/reg/type
precedence ladder. -/
def name_callsign_core (icao : String) (reg craft_type flight : Option String) :
    String × String :=
  let name := "ICAO-" ++ icao
  if pyTruthy flight && pyTruthy reg && pyTruthy craft_type then
    (name, pyUpper (pyStrip (flight.getD "")) ++ "-" ++ reg.getD "" ++ "-" ++ craft_type.getD "")
  else if pyTruthy reg && pyTruthy craft_type then
    (name, reg.getD "" ++ "-" ++ craft_type.getD "")
  else if pyTruthy flight then
    (name, pyUpper (pyStrip (flight.getD "")))
  else if pyTruthy reg then
    (name, reg.getD "")
  else
    (name, name)

/-- `set_name_callsign` (current revision): a truthy `known_craft["CALLSIGN"]`
is used verbatim for both fields, otherwise the precedence ladder runs; the
address in parentheses is appended to the callsign in either case. -/
def set_name_callsign (icao : String) (reg craft_type flight : Option String)
    (known_craft : Record) : String × String :=
  let nc :=
    match known_craft.lookup "CALLSIGN" with
    | some nm =>
      if nm = "" then name_callsign_core icao reg craft_type flight else (nm, nm)
    | none => name_callsign_core icao reg craft_type flight
  (nc.1, nc.2 ++ " (" ++ icao ++ ")")

/-- The index returned by `read_known_craft` (current revision): two hash
maps keyed by uppercased `HEX` and `REG`, modelled as association lists. -/
structure KnownDB where
  hex_index : List (String × Record)
  reg_index : List (String × Record)

/-- The registration half of `get_known_craft`: reached whenever the hex
lookup did not return a truthy record. -/
def get_known_craft_reg (db : KnownDB) (reg : Option String) : Record :=
  match reg with
  | some g =>
    if g = "" then []
    else
      match db.reg_index.lookup (pyUpper (pyStrip g)) with
      | some r => if r = [] then [] else r
      | none => []
  | none => []

/-- `get_known_craft` (current revision): a falsy database yields the empty
record; otherwise try the hex index with the trimmed uppercased key, then
the registration index, and fall back to the empty record. -/
def get_known_craft (db? : Option KnownDB) (icao_hex reg : Option String) : Record :=
  match db? with
  | none => []
  | some db =>
    match icao_hex with
    | some hs =>
      if hs = "" then get_known_craft_reg db reg
      else
        match db.hex_index.lookup (pyUpper (pyStrip hs)) with
        | some r => if r = [] then get_known_craft_reg db reg else r
        | none => get_known_craft_reg db reg
    | none => get_known_craft_reg db reg

/-- The hex half of `get_known_craft` found nothing truthy to return: no
hex key was supplied, it was empty, or the index missed. -/
def hexMissed (db : KnownDB) (icao_hex : Option String) : Prop :=
  match icao_hex with
  | none => True
  | some hs => hs = "" ∨ db.hex_index.lookup (pyUpper (pyStrip hs)) = none

/-- The registration half of `get_known_craft` found nothing: no key, an
empty key, or an index miss. -/
def regMissed (db : KnownDB) (reg : Option String) : Prop :=
  match reg with
  | none => True
  | some g => g = "" ∨ db.reg_index.lookup (pyUpper (pyStrip g)) = none

end Aircot

namespace AircotV1

/-- `lookup_country` (earlier revision): linear scan over the range table,
keeping the country of the last interval that contains the address. -/
def lookup_country (ranges : List Aircot.IcaoRange) (icao : Nat) : Option String :=
  ranges.foldl
    (fun country d => if d.start ≤ icao ∧ icao ≤ d.stop then some d.country else country)
    none

/-- `set_name_callsign` (earlier revision): identical to the current one
except that nothing is appended to the callsign. -/
def set_name_callsign (icao : String) (reg craft_type flight : Option String)
    (known_craft : Aircot.Record) : String × String :=
  match known_craft.lookup "CALLSIGN" with
  | some nm =>
    if nm = "" then Aircot.name_callsign_core icao reg craft_type flight else (nm, nm)
  | none => Aircot.name_callsign_core icao reg craft_type flight

end AircotV1

/-! ### Helper lemmas -/

/-! ### C1 -/

/-- C1: whenever the known-craft record carries a present, non-empty `COT`
field, `set_cot_type` returns exactly that value, for every address,
category, flight and country table — the rule-based classification
(`adsb_to_cot_type`, i.e. affiliation rules, category table, dolphin
override) never runs. -/
theorem set_cot_type_known_cot_short_circuits
    (countries : List Aircot.IcaoRange) (icao_hex : String)
    (category flight : Option String) (known_craft : Aircot.Record) (c : String)
    (hcot : known_craft.lookup "COT" = some c) (hne : c ≠ "") :
    Aircot.set_cot_type countries icao_hex category flight known_craft = some c := by
  simp [Aircot.set_cot_type, hcot, hne]

/-- Witness for C1 at a concrete record and inputs. -/
theorem set_cot_type_known_cot_short_circuits_witness :
    Aircot.set_cot_type [] "zz" none none [("COT", "a-f-A-C-F")] = some "a-f-A-C-F" :=
  set_cot_type_known_cot_short_circuits [] "zz" none none
    [("COT", "a-f-A-C-F")] "a-f-A-C-F" (by decide) (by decide)

/-! ### C2 -/

/-- C2: the attitude/affiliation chain of `adsb_to_cot_type` starts from
the defaults `("u", "C")` and applies, in order, the domestic-carrier
check, the special-region check, the neutral-civilian range check, the
country lookup and the friendly-military range check, each overwriting the
previous result (this is the literal shape of
`Aircot.classify_attitude_affil`); since the military-range rule comes
last and overwrites both fields, any address inside a listed MIL range
yields `("f", "M")` regardless of the flight string and of the country
table. -/
theorem classify_mil_range_forces_friendly_military
    (countries : List Aircot.IcaoRange) (icao : Nat) (flight : Option String)
    (hmil : Aircot.icao_in_known_range icao "MIL" = true) :
    Aircot.classify_attitude_affil countries icao flight = ("f", "M") := by
  simp [Aircot.classify_attitude_affil, Aircot.set_friendly_mil, hmil]

/-- Witness for C2 at the NZ-MIL address `0xC87F00`. -/
theorem classify_mil_range_forces_friendly_military_witness :
    Aircot.icao_in_known_range 0xC87F00 "MIL" = true ∧
    Aircot.classify_attitude_affil [] 0xC87F00 (some "ANZ123") = ("f", "M") :=
  ⟨by decide, classify_mil_range_forces_friendly_military [] 0xC87F00 (some "ANZ123") (by decide)⟩

/-! ### C3 -/

/-- C3 counterexample: the flight `"C6"` starts with the marker `"C6"` and
the affiliation is `"M"`, yet `is_dolphin` leaves the type untouched —
the source additionally requires `len(flight) >= 3`, which the claim
omits. -/
theorem is_dolphin_two_char_marker_cex :
    ("C6" : String).take 2 = "C6" ∧
    Aircot.is_dolphin "M" "a-u-A-M" (some "C6") = "a-u-A-M" ∧
    ("a-u-A-M" : String) ≠ "a-f-A-" ++ "M" ++ "-H-H" := by
  refine ⟨by decide, by decide, by decide⟩

/-- C3 amended: the override additionally requires the flight to be at
least three characters long.  For every flight of length ≥ 3 starting with
`"C6"` and affiliation `"M"` the type is forced to
`a-f-A-{affil}-H-H`; when the affiliation is not `"M"`, or the flight is
missing or lacks the marker, the type is returned unchanged. -/
theorem is_dolphin_override_amended (affil cot_type : String) (flight : Option String) :
    (∀ f, flight = some f → 3 ≤ f.length → f.take 2 = "C6" → affil = "M" →
      Aircot.is_dolphin affil cot_type flight = "a-f-A-" ++ affil ++ "-H-H") ∧
    (affil ≠ "M" → Aircot.is_dolphin affil cot_type flight = cot_type) ∧
    (∀ f, flight = some f → f.take 2 ≠ "C6" →
      Aircot.is_dolphin affil cot_type flight = cot_type) ∧
    (flight = none → Aircot.is_dolphin affil cot_type flight = cot_type) := by
  refine ⟨?_, ?_, ?_, ?_⟩
  · rintro f rfl hlen hpre rfl
    have hne : f ≠ "" := by
      intro h0
      rw [h0] at hlen
      simp at hlen
    simp [Aircot.is_dolphin, Aircot.dolphin, hne, hlen, hpre]
  · intro hne
    cases flight with
    | none => simp [Aircot.is_dolphin, Aircot.dolphin]
    | some f =>
      simp only [Aircot.is_dolphin, Aircot.dolphin]
      split
      · simp [hne]
      · rfl
  · rintro f rfl hpre
    simp [Aircot.is_dolphin, Aircot.dolphin, hpre]
  · rintro rfl
    simp [Aircot.is_dolphin, Aircot.dolphin]

/-- Witness for C3 (amended): the override fires on `"C61234"` with
affiliation `"M"` and stays silent for a civilian affiliation. -/
theorem is_dolphin_override_amended_witness :
    Aircot.is_dolphin "M" "a-u-A-M-F" (some "C61234") = "a-f-A-" ++ "M" ++ "-H-H" ∧
    Aircot.is_dolphin "C" "a-n-A-C-F" (some "C61234") = "a-n-A-C-F" :=
  ⟨(is_dolphin_override_amended "M" "a-u-A-M-F" (some "C61234")).1 "C61234" rfl
      (by decide) (by decide) rfl,
   (is_dolphin_override_amended "C" "a-n-A-C-F" (some "C61234")).2.1 (by decide)⟩

/-! ### C5 -/

/-- C5: for every attitude and every prior affiliation, category `"6"` or
`"A6"` (high-performance fixed wing) forces the affiliation to `"M"` and
produces the type code `a-{attitude}-A-M-F-F`, regardless of the incoming
type code. -/
theorem cot_type_from_category_high_performance
    (attitude affil : String) (ct : Option String) :
    Aircot.cot_type_from_category "6" attitude affil ct =
      (some ("a-" ++ attitude ++ "-A-M-F-F"), "M") ∧
    Aircot.cot_type_from_category "A6" attitude affil ct =
      (some ("a-" ++ attitude ++ "-A-M-F-F"), "M") := by
  have lit : ("-A-" ++ ("M" ++ "-F-F") : String) = "-A-M-F-F" := by decide
  have key : ∀ s : String, "a-" ++ s ++ "-A-" ++ "M" ++ "-F-F" = "a-" ++ s ++ "-A-M-F-F" := by
    intro s
    rw [String.append_assoc ("a-" ++ s ++ "-A-") "M" "-F-F",
      String.append_assoc ("a-" ++ s) "-A-" ("M" ++ "-F-F"), lit]
  constructor <;> simp [Aircot.cot_type_from_category, key]

/-! ### C7 -/

/-- C7 counterexample: in the current revision `set_name_callsign` appends
the address in parentheses, so the callsign for
`set_name_callsign("icao123", flight="flight123")` is not `"FLIGHT123"`
(it is `"FLIGHT123 (icao123)"`). -/
theorem set_name_callsign_flight_cex :
    (Aircot.set_name_callsign "icao123" none none (some "flight123") []).2
      = "FLIGHT123 (icao123)" ∧
    (Aircot.set_name_callsign "icao123" none none (some "flight123") []).2
      ≠ "FLIGHT123" := by
  refine ⟨by decide, by decide⟩

/-- C7 amended: with no registration, craft type, or known-craft record and
a non-empty flight, the current `set_name_callsign` returns
`name = "ICAO-{icao}"` and `callsign` equal to the trimmed, uppercased
flight **followed by the address in parentheses**; on `("icao123",
flight="flight123")` this gives callsign `"FLIGHT123 (icao123)"`.  (The
earlier revision `AircotV1.set_name_callsign` returns the bare
`"FLIGHT123"` the claim describes.) -/
theorem set_name_callsign_flight_amended (icao f : String) (hf : f ≠ "") :
    Aircot.set_name_callsign icao none none (some f) [] =
      ("ICAO-" ++ icao, pyUpper (pyStrip f) ++ " (" ++ icao ++ ")") ∧
    AircotV1.set_name_callsign icao none none (some f) [] =
      ("ICAO-" ++ icao, pyUpper (pyStrip f)) := by
  constructor
  · simp [Aircot.set_name_callsign, Aircot.name_callsign_core, pyTruthy, hf]
  · simp [AircotV1.set_name_callsign, Aircot.name_callsign_core, pyTruthy, hf]

/-- Witness for C7 (amended) at the spec's concrete input. -/
theorem set_name_callsign_flight_amended_witness :
    Aircot.set_name_callsign "icao123" none none (some "flight123") [] =
      ("ICAO-icao123", "FLIGHT123 (icao123)") :=
  ((set_name_callsign_flight_amended "icao123" "flight123" (by decide)).1).trans (by decide)

/-! ### C8 -/

/-- C8 counterexample: for the unparseable address string `"xyz"`,
`adsb_to_cot_type` raises `ValueError` (modelled as `none`) instead of
failing closed to a default classification. -/
theorem adsb_to_cot_type_unparseable_cex :
    pyIntHex "xyz" = none ∧
    Aircot.adsb_to_cot_type [] "xyz" none none = none := by
  refine ⟨by decide, by decide⟩

/-- C8 amended: for every address string that cannot be parsed as a
hexadecimal integer, `adsb_to_cot_type` raises (the `int(...)` conversion
fails with `ValueError`, `none` in this embedding) rather than classifying
with the defaults; there is no fail-closed path and no strict-mode flag. -/
theorem adsb_to_cot_type_unparseable_raises
    (countries : List Aircot.IcaoRange) (icao : String)
    (category flight : Option String) (h : pyIntHex icao = none) :
    Aircot.adsb_to_cot_type countries icao category flight = none := by
  simp [Aircot.adsb_to_cot_type, h]

/-- Witness for C8 (amended) at a second unparseable address. -/
theorem adsb_to_cot_type_unparseable_raises_witness :
    Aircot.adsb_to_cot_type [] "zz~z" none none = none :=
  adsb_to_cot_type_unparseable_raises [] "zz~z" none none (by decide)

/-! ### Binary-search lookup machinery for C4 and C10 -/

/-- One interval of the country table contains the address (inclusive). -/
def rangeHas (r : Aircot.IcaoRange) (icao : Nat) : Prop :=
  r.start ≤ icao ∧ icao ≤ r.stop

instance (r : Aircot.IcaoRange) (icao : Nat) : Decidable (rangeHas r icao) := by
  unfold rangeHas
  infer_instance

/-- Loop invariant of `bisectRightGo`: on monotone data, with fuel at least
`hi - lo`, the loop narrows `[lo, hi)` to the insertion point of `x`. -/
theorem bisectRightGo_spec (a : List Nat) (x : Nat)
    (hmono : ∀ i j, i ≤ j → j < a.length → a.getD i 0 ≤ a.getD j 0) :
    ∀ fuel lo hi, hi ≤ a.length → lo ≤ hi → hi - lo ≤ fuel →
    (∀ i, i < lo → a.getD i 0 ≤ x) →
    (∀ i, hi ≤ i → i < a.length → x < a.getD i 0) →
    lo ≤ Aircot.bisectRightGo a x lo hi fuel ∧
    Aircot.bisectRightGo a x lo hi fuel ≤ hi ∧
    (∀ i, i < Aircot.bisectRightGo a x lo hi fuel → a.getD i 0 ≤ x) ∧
    (∀ i, Aircot.bisectRightGo a x lo hi fuel ≤ i → i < a.length →
      x < a.getD i 0) := by
  intro fuel
  induction fuel with
  | zero =>
    intro lo hi hhi hlohi hfuel hlo hhi2
    have heq : lo = hi := by omega
    subst heq
    exact ⟨le_refl _, le_refl _, hlo, hhi2⟩
  | succ n ih =>
    intro lo hi hhi hlohi hfuel hlo hhi2
    simp only [Aircot.bisectRightGo]
    by_cases hlt : lo < hi
    · rw [if_pos hlt]
      have hmid1 : lo ≤ (lo + hi) / 2 := by omega
      have hmid2 : (lo + hi) / 2 < hi := by omega
      by_cases hcmp : x < a.getD ((lo + hi) / 2) 0
      · rw [if_pos hcmp]
        obtain ⟨h1, h2, h3, h4⟩ :=
          ih lo ((lo + hi) / 2) (by omega) hmid1 (by omega) hlo
            (fun i hi1 hi2 => lt_of_lt_of_le hcmp (hmono _ i hi1 hi2))
        exact ⟨h1, by omega, h3, h4⟩
      · rw [if_neg hcmp]
        push_neg at hcmp
        obtain ⟨h1, h2, h3, h4⟩ :=
          ih ((lo + hi) / 2 + 1) hi hhi (by omega) (by omega)
            (fun i hi1 => le_trans (hmono i ((lo + hi) / 2) (by omega) (by omega)) hcmp)
            hhi2
        exact ⟨by omega, h2, h3, h4⟩
    · rw [if_neg hlt]
      have heq : lo = hi := by omega
      subst heq
      exact ⟨le_refl _, le_refl _, hlo, hhi2⟩

/-- `bisectRight` on monotone data returns the insertion point: everything
before it is `≤ x`, everything from it on is `> x`. -/
theorem bisectRight_spec (a : List Nat) (x : Nat)
    (hmono : ∀ i j, i ≤ j → j < a.length → a.getD i 0 ≤ a.getD j 0) :
    Aircot.bisectRight a x ≤ a.length ∧
    (∀ i, i < Aircot.bisectRight a x → a.getD i 0 ≤ x) ∧
    (∀ i, Aircot.bisectRight a x ≤ i → i < a.length → x < a.getD i 0) := by
  obtain ⟨h1, h2, h3, h4⟩ :=
    bisectRightGo_spec a x hmono a.length 0 a.length (le_refl _) (Nat.zero_le _)
      (by omega) (fun i hi0 => absurd hi0 (Nat.not_lt_zero i))
      (fun i hi1 hi2 => absurd (Nat.lt_of_le_of_lt hi1 hi2) (Nat.lt_irrefl _))
  exact ⟨h2, h3, h4⟩

/-- A start-sorted table has monotone `starts`. -/
theorem starts_mono_of_pairwise (tbl : List Aircot.IcaoRange)
    (hsrt : tbl.Pairwise fun p q => p.start ≤ q.start) :
    ∀ i j, i ≤ j → j < (tbl.map fun r => r.start).length →
      (tbl.map fun r => r.start).getD i 0 ≤ (tbl.map fun r => r.start).getD j 0 := by
  intro i j hij hj
  have hp : (tbl.map fun r => r.start).Pairwise (· ≤ ·) :=
    List.Pairwise.map _ (fun a b h => h) hsrt
  rcases Nat.eq_or_lt_of_le hij with heq | hlt
  · subst heq
    exact le_refl _
  · have hi : i < (tbl.map fun r => r.start).length := lt_trans hlt hj
    have hg := List.pairwise_iff_get.mp hp ⟨i, hi⟩ ⟨j, hj⟩ hlt
    rw [List.getD_eq_getElem?_getD, List.getD_eq_getElem?_getD,
      List.getElem?_eq_getElem hi, List.getElem?_eq_getElem hj]
    simpa using hg

/-- On a start-sorted, valid (`start ≤ end`), pairwise non-overlapping
table, the binary-search lookup finds the (unique) interval containing the
address. -/
theorem lookup_country_found (tbl : List Aircot.IcaoRange) (icao : Nat)
    (hsrt : tbl.Pairwise fun p q => p.start ≤ q.start)
    (hvalid : ∀ r ∈ tbl, r.start ≤ r.stop)
    (hdisj : tbl.Pairwise fun p q => p.stop < q.start ∨ q.stop < p.start)
    (rng : Aircot.IcaoRange) (hmem : rng ∈ tbl) (hhas : rangeHas rng icao) :
    Aircot.lookup_country tbl icao = some rng.country := by
  obtain ⟨idx, hidx⟩ := List.mem_iff_get.mp hmem
  have hmono := starts_mono_of_pairwise tbl hsrt
  obtain ⟨hb1, hb2, hb3⟩ := bisectRight_spec (tbl.map fun r => r.start) icao hmono
  have hlen : (tbl.map fun r => r.start).length = tbl.length := List.length_map _ _
  have hstart_idx :
      ∀ (k : Nat) (hk : k < tbl.length),
        (tbl.map fun r => r.start).getD k 0 = (tbl.get ⟨k, hk⟩).start := by
    intro k hk
    rw [List.getD_eq_getElem?_getD, List.getElem?_eq_getElem (by omega)]
    simp
  -- the index of `rng` lies strictly below the insertion point
  have hidx_lt : idx.val < Aircot.bisectRight (tbl.map fun r => r.start) icao := by
    by_contra hcon
    push_neg at hcon
    have := hb3 idx.val hcon (by omega)
    rw [hstart_idx idx.val idx.isLt, hidx] at this
    exact absurd hhas.1 (by omega)
  have hpos : 1 ≤ Aircot.bisectRight (tbl.map fun r => r.start) icao := by omega
  have hj : Aircot.bisectRight (tbl.map fun r => r.start) icao - 1 < tbl.length := by
    omega
  -- the probed entry starts at or before the address
  have hjstart :
      (tbl.get ⟨Aircot.bisectRight (tbl.map fun r => r.start) icao - 1, hj⟩).start ≤ icao := by
    have := hb2 (Aircot.bisectRight (tbl.map fun r => r.start) icao - 1) (by omega)
    rwa [hstart_idx _ hj] at this
  -- the probed entry is the entry of `rng`
  have hsame : idx.val = Aircot.bisectRight (tbl.map fun r => r.start) icao - 1 := by
    by_contra hne
    have hlt : idx.val < Aircot.bisectRight (tbl.map fun r => r.start) icao - 1 := by
      omega
    have hle := List.pairwise_iff_get.mp hsrt idx ⟨_, hj⟩ hlt
    have hov := List.pairwise_iff_get.mp hdisj idx ⟨_, hj⟩ hlt
    rw [hidx] at hle hov
    have hvj := hvalid _ (List.get_mem tbl _ hj)
    rcases hov with h | h
    · exact absurd hhas.2 (by omega)
    · omega
  -- assemble the lookup result
  unfold Aircot.lookup_country
  simp only [if_pos hpos]
  rw [List.get?_eq_get hj]
  have hentry : tbl.get ⟨Aircot.bisectRight (tbl.map fun r => r.start) icao - 1, hj⟩ = rng := by
    rw [← hidx]
    congr 1
    exact (Fin.ext hsame.symm)
  rw [hentry]
  show (if rng.start ≤ icao ∧ icao ≤ rng.stop then some rng.country else none) = some rng.country
  rw [if_pos (show rng.start ≤ icao ∧ icao ≤ rng.stop from hhas)]

/-- If no interval of the table contains the address, the binary-search
lookup reports no match (no sortedness needed: only the probed entry is
tested). -/
theorem lookup_country_nomatch (tbl : List Aircot.IcaoRange) (icao : Nat)
    (h : ∀ rng ∈ tbl, ¬rangeHas rng icao) :
    Aircot.lookup_country tbl icao = none := by
  unfold Aircot.lookup_country
  by_cases hpos : 1 ≤ Aircot.bisectRight (tbl.map fun r => r.start) icao
  · simp only [if_pos hpos]
    cases hget : tbl.get? (Aircot.bisectRight (tbl.map fun r => r.start) icao - 1) with
    | none => rfl
    | some entry =>
      have hmem : entry ∈ tbl := List.get?_mem hget
      show (if entry.start ≤ icao ∧ icao ≤ entry.stop then some entry.country else none) = none
      exact if_neg (h entry hmem)
  · simp only [if_neg hpos]

/-- A fold over intervals none of which contains the address keeps its
accumulator (the linear `lookup_country` skips non-matching rows). -/
theorem linear_fold_skip (icao : Nat) :
    ∀ (t : List Aircot.IcaoRange) (acc : Option String),
    (∀ y ∈ t, ¬rangeHas y icao) →
    t.foldl
      (fun country d => if d.start ≤ icao ∧ icao ≤ d.stop then some d.country else country)
      acc = acc := by
  intro t
  induction t with
  | nil => intro acc _; rfl
  | cons hd tl ih =>
    intro acc hnone
    simp only [List.foldl_cons]
    rw [if_neg (show ¬(hd.start ≤ icao ∧ icao ≤ hd.stop) from hnone hd (List.mem_cons_self hd tl))]
    exact ih acc fun y hy => hnone y (List.mem_cons_of_mem hd hy)

/-- When at most one interval (positionally) contains the address, the
linear last-match scan agrees with the first-match `find?`. -/
theorem linear_lookup_eq_find (icao : Nat) :
    ∀ (t : List Aircot.IcaoRange),
    t.Pairwise (fun p q => ¬(rangeHas p icao ∧ rangeHas q icao)) →
    AircotV1.lookup_country t icao =
      (t.find? fun r => decide (rangeHas r icao)).map fun r => r.country := by
  intro t
  induction t with
  | nil => intro _; rfl
  | cons hd tl ih =>
    intro hpw
    rw [List.pairwise_cons] at hpw
    obtain ⟨hhd, htl⟩ := hpw
    by_cases hc : rangeHas hd icao
    · have hskip : ∀ y ∈ tl, ¬rangeHas y icao := fun y hy hcy => hhd y hy ⟨hc, hcy⟩
      unfold AircotV1.lookup_country
      simp only [List.foldl_cons]
      rw [if_pos (show hd.start ≤ icao ∧ icao ≤ hd.stop from hc)]
      rw [linear_fold_skip icao tl (some hd.country) hskip]
      rw [List.find?_cons_of_pos _ (by simpa using hc)]
      rfl
    · unfold AircotV1.lookup_country
      simp only [List.foldl_cons]
      rw [if_neg (show ¬(hd.start ≤ icao ∧ icao ≤ hd.stop) from hc)]
      rw [List.find?_cons_of_neg _ (by simpa using hc)]
      exact ih htl

/-- On a start-sorted, valid, pairwise non-overlapping table the binary
search also agrees with `find?`. -/
theorem binary_lookup_eq_find (tbl : List Aircot.IcaoRange) (icao : Nat)
    (hsrt : tbl.Pairwise fun p q => p.start ≤ q.start)
    (hvalid : ∀ r ∈ tbl, r.start ≤ r.stop)
    (hdisj : tbl.Pairwise fun p q => p.stop < q.start ∨ q.stop < p.start) :
    Aircot.lookup_country tbl icao =
      (tbl.find? fun r => decide (rangeHas r icao)).map fun r => r.country := by
  cases hf : tbl.find? fun r => decide (rangeHas r icao) with
  | none =>
    rw [List.find?_eq_none] at hf
    rw [lookup_country_nomatch tbl icao fun rng hmem => by simpa using hf rng hmem]
    rfl
  | some rng =>
    have hmem := List.mem_of_find?_eq_some hf
    have hhas : rangeHas rng icao := by simpa using List.find?_some hf
    rw [lookup_country_found tbl icao hsrt hvalid hdisj rng hmem hhas]
    rfl

/-! ### C4 -/

/-- C4 counterexample: a loaded table may contain overlapping ranges (the
spec's data model allows it and the loader only sorts by start).  On the
start-sorted, valid table `[(0x0,0x100,"A"), (0x50,0x60,"B")]` the address
`0x100` equals the first range's `end` boundary, yet `lookup_country`
probes only the later-starting range `B` and reports no match instead of
`"A"`. -/
theorem lookup_country_boundary_cex :
    (([⟨0x0, 0x100, "A"⟩, ⟨0x50, 0x60, "B"⟩] :
        List Aircot.IcaoRange).Pairwise fun p q => p.start ≤ q.start) ∧
    (∀ r ∈ ([⟨0x0, 0x100, "A"⟩, ⟨0x50, 0x60, "B"⟩] : List Aircot.IcaoRange),
      r.start ≤ r.stop) ∧
    (⟨0x0, 0x100, "A"⟩ : Aircot.IcaoRange) ∈
      ([⟨0x0, 0x100, "A"⟩, ⟨0x50, 0x60, "B"⟩] : List Aircot.IcaoRange) ∧
    (0x100 : Nat) = (⟨0x0, 0x100, "A"⟩ : Aircot.IcaoRange).stop ∧
    Aircot.lookup_country [⟨0x0, 0x100, "A"⟩, ⟨0x50, 0x60, "B"⟩] 0x100 = none := by
  refine ⟨by decide, by decide, by decide, by decide, by decide⟩

/-- C4 amended: on a loaded table whose ranges are additionally pairwise
non-overlapping (with the data-model invariant `start ≤ end`, and sorted
by start as the loader guarantees), an address equal to some range's
`start` or `end` boundary returns that range's country, and an address
contained in no range returns `none`. -/
theorem lookup_country_inclusive_bounds_amended
    (tbl : List Aircot.IcaoRange) (icao : Nat)
    (hsrt : tbl.Pairwise fun p q => p.start ≤ q.start)
    (hvalid : ∀ r ∈ tbl, r.start ≤ r.stop)
    (hdisj : tbl.Pairwise fun p q => p.stop < q.start ∨ q.stop < p.start) :
    (∀ rng ∈ tbl, icao = rng.start ∨ icao = rng.stop →
      Aircot.lookup_country tbl icao = some rng.country) ∧
    ((∀ rng ∈ tbl, ¬(rng.start ≤ icao ∧ icao ≤ rng.stop)) →
      Aircot.lookup_country tbl icao = none) := by
  constructor
  · intro rng hmem hbd
    have hv := hvalid rng hmem
    have hhas : rangeHas rng icao := by
      rcases hbd with h | h <;> exact ⟨by omega, by omega⟩
    exact lookup_country_found tbl icao hsrt hvalid hdisj rng hmem hhas
  · intro hnone
    exact lookup_country_nomatch tbl icao hnone

/-- Witness for C4 (amended) on a two-range table: the lookup hits a start
boundary, an end boundary, and reports no match off the ranges. -/
theorem lookup_country_inclusive_bounds_amended_witness :
    Aircot.lookup_country [⟨0xA00000, 0xAFFFFF, "US"⟩, ⟨0xE40000, 0xE7FFFF, "Brazil"⟩]
      0xE40000 = some "Brazil" ∧
    Aircot.lookup_country [⟨0xA00000, 0xAFFFFF, "US"⟩, ⟨0xE40000, 0xE7FFFF, "Brazil"⟩]
      0xAFFFFF = some "US" ∧
    Aircot.lookup_country [⟨0xA00000, 0xAFFFFF, "US"⟩, ⟨0xE40000, 0xE7FFFF, "Brazil"⟩]
      0xF00000 = none :=
  ⟨(lookup_country_inclusive_bounds_amended
      [⟨0xA00000, 0xAFFFFF, "US"⟩, ⟨0xE40000, 0xE7FFFF, "Brazil"⟩] 0xE40000
      (by decide) (by decide) (by decide)).1 ⟨0xE40000, 0xE7FFFF, "Brazil"⟩
      (by decide) (Or.inl (by decide)),
   (lookup_country_inclusive_bounds_amended
      [⟨0xA00000, 0xAFFFFF, "US"⟩, ⟨0xE40000, 0xE7FFFF, "Brazil"⟩] 0xAFFFFF
      (by decide) (by decide) (by decide)).1 ⟨0xA00000, 0xAFFFFF, "US"⟩
      (by decide) (Or.inr (by decide)),
   (lookup_country_inclusive_bounds_amended
      [⟨0xA00000, 0xAFFFFF, "US"⟩, ⟨0xE40000, 0xE7FFFF, "Brazil"⟩] 0xF00000
      (by decide) (by decide) (by decide)).2 (by decide)⟩

/-! ### C10 -/

instance : DecidableRel (fun x y : Aircot.IcaoRange => x.start ≤ y.start) :=
  fun a b => Nat.decLe a.start b.start

instance : IsTotal Aircot.IcaoRange (fun x y => x.start ≤ y.start) :=
  ⟨fun a b => Nat.le_total a.start b.start⟩

instance : IsTrans Aircot.IcaoRange (fun x y => x.start ≤ y.start) :=
  ⟨fun _ _ _ => Nat.le_trans⟩

/-- C10: on every country-range table with valid (`start ≤ end`) pairwise
non-overlapping intervals, the earlier revision's linear last-match scan
and the current revision's binary search over the start-sorted table agree
on every queried address. -/
theorem lookup_country_linear_binary_agree
    (tbl : List Aircot.IcaoRange) (icao : Nat)
    (hvalid : ∀ r ∈ tbl, r.start ≤ r.stop)
    (hdisj : tbl.Pairwise fun p q => p.stop < q.start ∨ q.stop < p.start) :
    AircotV1.lookup_country tbl icao =
      Aircot.lookup_country (Aircot.sortIcao tbl) icao := by
  have hperm : (Aircot.sortIcao tbl).Perm tbl := List.perm_insertionSort _ tbl
  have hsymm : ∀ {x y : Aircot.IcaoRange},
      (x.stop < y.start ∨ y.stop < x.start) → (y.stop < x.start ∨ x.stop < y.start) :=
    fun h => h.elim Or.inr Or.inl
  have hvalidS : ∀ r ∈ Aircot.sortIcao tbl, r.start ≤ r.stop :=
    fun r hr => hvalid r (hperm.mem_iff.mp hr)
  have hdisjS :
      (Aircot.sortIcao tbl).Pairwise fun p q => p.stop < q.start ∨ q.stop < p.start :=
    (List.Perm.pairwise_iff hsymm hperm).mpr hdisj
  have hsrtS : (Aircot.sortIcao tbl).Pairwise fun p q => p.start ≤ q.start :=
    List.sorted_insertionSort _ tbl
  have himp : ∀ {p q : Aircot.IcaoRange},
      (p.stop < q.start ∨ q.stop < p.start) →
        ¬(rangeHas p icao ∧ rangeHas q icao) := by
    rintro p q hov ⟨⟨h1, h2⟩, ⟨h3, h4⟩⟩
    rcases hov with h | h <;> omega
  have hU : tbl.Pairwise fun p q => ¬(rangeHas p icao ∧ rangeHas q icao) :=
    hdisj.imp himp
  rw [linear_lookup_eq_find icao tbl hU,
    binary_lookup_eq_find (Aircot.sortIcao tbl) icao hsrtS hvalidS hdisjS]
  congr 1
  cases hft : tbl.find? fun r => decide (rangeHas r icao) with
  | none =>
    have hS : (Aircot.sortIcao tbl).find? (fun r => decide (rangeHas r icao)) = none :=
      List.find?_eq_none.mpr fun x hx =>
        List.find?_eq_none.mp hft x (hperm.mem_iff.mp hx)
    rw [hS]
  | some x =>
    have hpx : rangeHas x icao := by simpa using List.find?_some hft
    have hxm : x ∈ tbl := List.mem_of_find?_eq_some hft
    have hxS : x ∈ Aircot.sortIcao tbl := hperm.mem_iff.mpr hxm
    cases hfs : (Aircot.sortIcao tbl).find? fun r => decide (rangeHas r icao) with
    | none =>
      exact absurd hpx (by simpa using List.find?_eq_none.mp hfs x hxS)
    | some y =>
      have hpy : rangeHas y icao := by simpa using List.find?_some hfs
      have hym : y ∈ tbl := hperm.mem_iff.mp (List.mem_of_find?_eq_some hfs)
      have hsymU :
          Symmetric fun p q : Aircot.IcaoRange =>
            ¬(rangeHas p icao ∧ rangeHas q icao) :=
        fun a b hab ⟨h1, h2⟩ => hab ⟨h2, h1⟩
      have hxy : x = y := by
        by_contra hne
        exact (List.Pairwise.forall hsymU hU hxm hym hne) ⟨hpx, hpy⟩
      rw [hxy]

/-- Witness for C10 on a concrete unsorted two-range table. -/
theorem lookup_country_linear_binary_agree_witness :
    AircotV1.lookup_country
        [⟨0xE40000, 0xE7FFFF, "Brazil"⟩, ⟨0xA00000, 0xADF7C7, "US"⟩] 0xE40000 =
      Aircot.lookup_country
        (Aircot.sortIcao [⟨0xE40000, 0xE7FFFF, "Brazil"⟩, ⟨0xA00000, 0xADF7C7, "US"⟩])
        0xE40000 ∧
    AircotV1.lookup_country
        [⟨0xE40000, 0xE7FFFF, "Brazil"⟩, ⟨0xA00000, 0xADF7C7, "US"⟩] 0xE40000 =
      some "Brazil" :=
  ⟨lookup_country_linear_binary_agree
      [⟨0xE40000, 0xE7FFFF, "Brazil"⟩, ⟨0xA00000, 0xADF7C7, "US"⟩] 0xE40000
      (by decide) (by decide),
   by decide⟩

/-! ### C6 -/

/-- A successful association-list lookup returns a stored pair. -/
theorem lookup_mem_pair {β : Type} :
    ∀ (l : List (String × β)) (a : String) (b : β),
      l.lookup a = some b → (a, b) ∈ l := by
  intro l
  induction l with
  | nil => intro a b hline; simp [List.lookup] at hline
  | cons hd tl ih =>
    intro a b hline
    rcases hd with ⟨k, v⟩
    rw [List.lookup] at hline
    cases hk : a == k with
    | true =>
      rw [hk] at hline
      simp only [Option.some.injEq] at hline
      have ha : a = k := by simpa using hk
      subst ha
      rw [← hline]
      exact List.mem_cons_self _ _
    | false =>
      rw [hk] at hline
      exact List.mem_cons_of_mem _ (ih a b hline)

/-- C6: against a known-craft index whose stored records are non-empty (as
`read_known_craft` guarantees — only rows with a `HEX` or `REG` value are
indexed), `get_known_craft` returns the record under the uppercased,
trimmed hex key when it matches; otherwise the record under the
registration key when it matches; otherwise the empty record.  The
function is total, so a miss never raises. -/
theorem get_known_craft_precedence (db : Aircot.KnownDB)
    (icao_hex reg : Option String)
    (hinvh : ∀ p ∈ db.hex_index, p.2 ≠ ([] : Aircot.Record))
    (hinvr : ∀ p ∈ db.reg_index, p.2 ≠ ([] : Aircot.Record)) :
    (∀ hs r, icao_hex = some hs → hs ≠ "" →
      db.hex_index.lookup (pyUpper (pyStrip hs)) = some r →
      Aircot.get_known_craft (some db) icao_hex reg = r) ∧
    (Aircot.hexMissed db icao_hex → ∀ gs r, reg = some gs → gs ≠ "" →
      db.reg_index.lookup (pyUpper (pyStrip gs)) = some r →
      Aircot.get_known_craft (some db) icao_hex reg = r) ∧
    (Aircot.hexMissed db icao_hex → Aircot.regMissed db reg →
      Aircot.get_known_craft (some db) icao_hex reg = []) := by
  have hreghit : ∀ gs r, reg = some gs → gs ≠ "" →
      db.reg_index.lookup (pyUpper (pyStrip gs)) = some r →
      Aircot.get_known_craft_reg db reg = r := by
    rintro gs r rfl hne hline
    have hnonempty : r ≠ [] :=
      hinvr (pyUpper (pyStrip gs), r) (lookup_mem_pair _ _ _ hline)
    simp [Aircot.get_known_craft_reg, hne, hline, hnonempty]
  have hregmiss : Aircot.regMissed db reg →
      Aircot.get_known_craft_reg db reg = [] := by
    intro hmiss
    cases reg with
    | none => rfl
    | some gs =>
      rcases hmiss with hempty | hnone
      · simp [Aircot.get_known_craft_reg, hempty]
      · by_cases hne : gs = ""
        · simp [Aircot.get_known_craft_reg, hne]
        · simp [Aircot.get_known_craft_reg, hne, hnone]
  have hpass : ∀ hs, Aircot.hexMissed db (some hs) →
      Aircot.get_known_craft (some db) (some hs) reg =
        Aircot.get_known_craft_reg db reg := by
    intro hs hmiss
    rcases hmiss with hempty | hnone
    · simp [Aircot.get_known_craft, hempty]
    · by_cases hhe : hs = ""
      · simp [Aircot.get_known_craft, hhe]
      · simp [Aircot.get_known_craft, hhe, hnone]
  refine ⟨?_, ?_, ?_⟩
  · rintro hs r rfl hne hline
    have hnonempty : r ≠ [] :=
      hinvh (pyUpper (pyStrip hs), r) (lookup_mem_pair _ _ _ hline)
    simp [Aircot.get_known_craft, hne, hline, hnonempty]
  · intro hmiss gs r hreg hne hline
    cases icao_hex with
    | none => exact hreghit gs r hreg hne hline
    | some hs => rw [hpass hs hmiss]; exact hreghit gs r hreg hne hline
  · intro hmissh hmissr
    cases icao_hex with
    | none => exact hregmiss hmissr
    | some hs => rw [hpass hs hmissh]; exact hregmiss hmissr

/-- Witness for C6: a registration hit (with trimming and uppercasing)
when no hex key is supplied, a hex hit, and a double miss yielding the
empty record. -/
theorem get_known_craft_precedence_witness :
    Aircot.get_known_craft
        (some ⟨[("ABC123", [("HEX", "ABC123"), ("COT", "a-f-A-M-F")])],
          [("N17085", [("REG", "N17085"), ("COT", "a-f-A-C-F")])]⟩)
        none (some " n17085 ") = [("REG", "N17085"), ("COT", "a-f-A-C-F")] ∧
    Aircot.get_known_craft
        (some ⟨[("ABC123", [("HEX", "ABC123"), ("COT", "a-f-A-M-F")])],
          [("N17085", [("REG", "N17085"), ("COT", "a-f-A-C-F")])]⟩)
        (some "abc123") (some "N17085") = [("HEX", "ABC123"), ("COT", "a-f-A-M-F")] ∧
    Aircot.get_known_craft
        (some ⟨[("ABC123", [("HEX", "ABC123"), ("COT", "a-f-A-M-F")])],
          [("N17085", [("REG", "N17085"), ("COT", "a-f-A-C-F")])]⟩)
        (some "zzz") (some "qqq") = [] :=
  ⟨(get_known_craft_precedence
      ⟨[("ABC123", [("HEX", "ABC123"), ("COT", "a-f-A-M-F")])],
        [("N17085", [("REG", "N17085"), ("COT", "a-f-A-C-F")])]⟩
      none (some " n17085 ") (by decide) (by decide)).2.1
      trivial " n17085 " [("REG", "N17085"), ("COT", "a-f-A-C-F")] rfl
      (by decide) (by decide),
   (get_known_craft_precedence
      ⟨[("ABC123", [("HEX", "ABC123"), ("COT", "a-f-A-M-F")])],
        [("N17085", [("REG", "N17085"), ("COT", "a-f-A-C-F")])]⟩
      (some "abc123") (some "N17085") (by decide) (by decide)).1
      "abc123" [("HEX", "ABC123"), ("COT", "a-f-A-M-F")] rfl
      (by decide) (by decide),
   (get_known_craft_precedence
      ⟨[("ABC123", [("HEX", "ABC123"), ("COT", "a-f-A-M-F")])],
        [("N17085", [("REG", "N17085"), ("COT", "a-f-A-C-F")])]⟩
      (some "zzz") (some "qqq") (by decide) (by decide)).2.2
      (Or.inr (by decide)) (Or.inr (by decide))⟩
